import Mathlib

/-!
Verification of the retro-planner backend (`src/server/main.py`) against its
natural-language specification.

The Python source is shallowly embedded: the in-database state (users,
sessions, tasks tables) is a `DB` record of lists, every endpoint body is a
Lean function from its payload and the current `DB` to the new `DB` together
with the HTTP outcome, and every call to `uuid.uuid4()` / `datetime.utcnow()`
is an explicit string parameter (the code treats these values as opaque fresh
identifiers / timestamps).  `hashlib.sha256(...).hexdigest()` is an arbitrary
parameter `sha : String → String`: every theorem below is proved for all such
functions, hence in particular for real SHA-256.  Python string primitives
(`str.strip`, `str.lower`, `str.split`, `str.split(" ", 1)`) are modelled on
`List Char` so that everything evaluates by kernel reduction.
-/

namespace RetroPlanner

/-! ## Python string primitives -/

/-- `str.strip()` on the character list: drop whitespace from both ends. -/
def strip_list (l : List Char) : List Char :=
  ((l.dropWhile Char.isWhitespace).reverse.dropWhile Char.isWhitespace).reverse

/-- Models Python `s.strip()` (ASCII whitespace). -/
def py_strip (s : String) : String := String.mk (strip_list s.data)

/-- Models Python `s.lower()` (ASCII case folding). -/
def py_lower (s : String) : String := String.mk (s.data.map Char.toLower)

/-- Everything after the first space, `[]` if there is none.  Models the
`[1]` component of Python `s.split(" ", 1)`; the source only evaluates it
after a `startswith("Bearer ")` check, which guarantees a space exists. -/
def after_first_space : List Char → List Char
  | [] => []
  | c :: cs => if c = ' ' then cs else after_first_space cs

/-- Models `s.split(" ", 1)[1]` (under the guard that `s` contains a space). -/
def split_space_once_rest (s : String) : String :=
  String.mk (after_first_space s.data)

/-- Models `s.startswith(p)`. -/
def py_startswith (p s : String) : Bool := p.data.isPrefixOf s.data

/-- One step of splitting a string into whitespace-separated chunks,
consumed from the right by `foldr`. -/
def pywords_step (c : Char) (acc : List (List Char)) : List (List Char) :=
  if c.isWhitespace then [] :: acc
  else
    match acc with
    | [] => [c] :: []
    | w :: ws => (c :: w) :: ws

/-- Split at every whitespace character (keeping empty chunks). -/
def pywords_core (l : List Char) : List (List Char) :=
  l.foldr pywords_step []

/-- Models Python `s.split()` with no arguments: the whitespace-separated
words of `s`, with empty chunks (from leading/trailing/repeated whitespace)
discarded. -/
def pywords (l : List Char) : List (List Char) :=
  (pywords_core l).filter (fun w => !w.isEmpty)

/-! ## Data model (the ORM tables of `main.py`) -/

/-- A row of the `users` table (`UserORM`). -/
structure UserORM where
  id : String
  email : String
  name : String
  password_hash : String
  created_at : String
deriving DecidableEq, Repr

/-- A row of the `sessions` table (`SessionORM`). -/
structure SessionORM where
  token : String
  user_id : String
deriving DecidableEq, Repr

/-- A row of the `tasks` table (`TaskORM`). -/
structure TaskORM where
  id : String
  text : String
  title : String
  category : String
  project : String
  date : Option String
  done : Bool
  createdAt : String
  user_id : String
deriving DecidableEq, Repr

/-- The whole database state. -/
structure DB where
  users : List UserORM
  sessions : List SessionORM
  tasks : List TaskORM
deriving DecidableEq, Repr

/-- `fastapi.HTTPException(status_code, detail)`. -/
structure HTTPError where
  status : Nat
  detail : String
deriving DecidableEq, Repr

/-! ## Utilities of `main.py` -/

/-- `make_title`: the first five whitespace-separated words of the stripped
text joined by single spaces, or the fixed placeholder when there is no
word.  (`text.strip().split()` / `" ".join(words[:5])`.) -/
def make_title (text : String) : String :=
  let words := pywords (py_strip text).data
  if words.isEmpty then "Без названия"
  else String.intercalate " " ((words.take 5).map String.mk)

/-- `hash_password`: `sha256((salt + password).encode()).hexdigest()`, with
the digest function `sha` and the `PASSWORD_SALT` value as parameters. -/
def hash_password (sha : String → String) (salt password : String) : String :=
  sha (salt ++ password)

/-- `verify_password`. -/
def verify_password (sha : String → String) (salt password password_hash : String) : Bool :=
  hash_password sha salt password == password_hash

/-- `create_session`: insert the `(token, user_id)` row; the fresh
`uuid4().hex` value is the `token` parameter. -/
def create_session (db : DB) (user_id token : String) : DB × String :=
  ({ db with sessions := db.sessions ++ [{ token := token, user_id := user_id }] }, token)

/-- The token-extraction steps shared verbatim by `get_current_user` and
`logout_user`: `None` when the header is absent, lacks the `"Bearer "`
scheme prefix, or the extracted `split(" ", 1)[1].strip()` token is empty;
otherwise the extracted token. -/
def auth_token (authorization : Option String) : Option String :=
  match authorization with
  | none => none
  | some header =>
    if py_startswith "Bearer " header then
      let token := py_strip (split_space_once_rest header)
      if token == "" then none else some token
    else none

/-- `get_current_user`: the auth gate.  Resolves the bearer header to the
session row and then to the user row, failing with 401 at each stage as in
the source. -/
def get_current_user (db : DB) (authorization : Option String) :
    Except HTTPError UserORM :=
  match auth_token authorization with
  | none => .error { status := 401, detail := "Не авторизовано" }
  | some token =>
    match db.sessions.find? (fun s => s.token == token) with
    | none => .error { status := 401, detail := "Токен недействителен" }
    | some session =>
      match db.users.find? (fun u => u.id == session.user_id) with
      | none => .error { status := 401, detail := "Пользователь не найден" }
      | some user => .ok user

/-! ## Auth endpoints -/

/-- Request body of `POST /auth/register` (`UserCreate`). -/
structure UserCreate where
  email : String
  name : String
  password : String
deriving DecidableEq, Repr

/-- Request body of `POST /auth/login` (`UserLogin`). -/
structure UserLogin where
  email : String
  password : String
deriving DecidableEq, Repr

/-- `register_user` (`POST /auth/register`): normalize the email, reject a
duplicate with 400, otherwise insert the user and issue a session token.
`freshUserId` and `freshToken` stand for the two `uuid4` calls, `nowIso`
for `datetime.utcnow().isoformat()`.  The result pairs the new database
state with the HTTP outcome (`AuthToken(token, user)` on success); on a
raised `HTTPException` the state is unchanged, as nothing was committed. -/
def register_user (sha : String → String) (salt : String)
    (freshUserId freshToken nowIso : String) (payload : UserCreate) (db : DB) :
    DB × Except HTTPError (String × UserORM) :=
  let email := py_strip (py_lower payload.email)
  match db.users.find? (fun u => u.email == email) with
  | some _ => (db, .error { status := 400, detail := "Пользователь с таким email уже существует" })
  | none =>
    let user : UserORM :=
      { id := freshUserId
        email := email
        name := if py_strip payload.name == "" then email else py_strip payload.name
        password_hash := hash_password sha salt payload.password
        created_at := nowIso }
    let db1 := { db with users := db.users ++ [user] }
    let st := create_session db1 user.id freshToken
    (st.1, .ok (st.2, user))

/-- `login_user` (`POST /auth/login`): the same 400 error — same status and
same detail string — for an unknown email and for a wrong password. -/
def login_user (sha : String → String) (salt : String) (freshToken : String)
    (payload : UserLogin) (db : DB) : DB × Except HTTPError (String × UserORM) :=
  let email := py_strip (py_lower payload.email)
  match db.users.find? (fun u => u.email == email) with
  | none => (db, .error { status := 400, detail := "Неверный email или пароль" })
  | some user =>
    if verify_password sha salt payload.password user.password_hash then
      let st := create_session db user.id freshToken
      (st.1, .ok (st.2, user))
    else (db, .error { status := 400, detail := "Неверный email или пароль" })

/-- `logout_user` (`POST /auth/logout`, `status_code=204`): silently ignore
a missing/invalid header or empty token, otherwise delete every session row
carrying the token.  Always returns HTTP status 204 and never raises. -/
def logout_user (db : DB) (authorization : Option String) : DB × Nat :=
  match auth_token authorization with
  | none => (db, 204)
  | some token =>
    ({ db with sessions := db.sessions.filter (fun s => !(s.token == token)) }, 204)

/-! ## Task endpoints -/

/-- Stable insertion of a task into a list sorted by `le`. -/
def insert_by (le : TaskORM → TaskORM → Bool) (a : TaskORM) :
    List TaskORM → List TaskORM
  | [] => [a]
  | b :: bs => if le a b then a :: b :: bs else b :: insert_by le a bs

/-- Stable insertion sort; models the SQL `ORDER BY` of the task listing. -/
def sort_by (le : TaskORM → TaskORM → Bool) : List TaskORM → List TaskORM
  | [] => []
  | a :: as => insert_by le a (sort_by le as)

/-- `get_tasks` (`GET /tasks`): the caller's tasks ordered by `createdAt`
ascending (`.filter(TaskORM.user_id == current_user.id).order_by(TaskORM.createdAt)`). -/
def get_tasks (db : DB) (current_user : UserORM) : List TaskORM :=
  sort_by (fun a b => decide (a.createdAt ≤ b.createdAt))
    (db.tasks.filter (fun t => t.user_id == current_user.id))

/-- Request body of `POST /tasks` (`TaskCreate`).  `category` and `project`
are required strings in the pydantic model; the handler substitutes the
defaults when they are falsy (empty). -/
structure TaskCreate where
  text : String
  category : String
  project : String
  date : Option String
deriving DecidableEq, Repr

/-- Request body of `PATCH /tasks/{id}` (`TaskPatch`): every field optional. -/
structure TaskPatch where
  text : Option String
  category : Option String
  project : Option String
  date : Option String
  done : Option Bool
deriving DecidableEq, Repr

/-- `create_task` (`POST /tasks`): 400 on a whitespace-only body, otherwise
insert a fresh task with derived title, falsy-default category/project,
`done=False` and a fresh timestamp. -/
def create_task (freshId nowIso : String) (payload : TaskCreate)
    (current_user : UserORM) (db : DB) : DB × Except HTTPError TaskORM :=
  let text := py_strip payload.text
  if text == "" then
    (db, .error { status := 400, detail := "Текст задачи не может быть пустым" })
  else
    let task : TaskORM :=
      { id := freshId
        text := text
        title := make_title text
        category := if payload.category == "" then "work" else payload.category
        project := if payload.project == "" then "" else payload.project
        date := payload.date
        done := false
        createdAt := nowIso
        user_id := current_user.id }
    ({ db with tasks := db.tasks ++ [task] }, .ok task)

/-- The five in-place field updates of `update_task`, applied to the ORM
row: each field is written only when present in the patch, and a new `text`
also recomputes `title`. -/
def apply_patch (patch : TaskPatch) (task : TaskORM) : TaskORM :=
  let task := match patch.text with
    | some s => { task with text := s, title := make_title s }
    | none => task
  let task := match patch.category with
    | some c => { task with category := c }
    | none => task
  let task := match patch.project with
    | some p => { task with project := p }
    | none => task
  let task := match patch.date with
    | some d => { task with date := some d }
    | none => task
  let task := match patch.done with
    | some b => { task with done := b }
    | none => task
  task

/-- `update_task` (`PATCH /tasks/{id}`): find the row whose id *and* owner
match (`TaskORM.id == task_id, TaskORM.user_id == current_user.id`), 404
otherwise.  The id is the primary key, so at most one row matches; the ORM
mutation-in-place is modelled by rewriting the matching row of the table. -/
def update_task (task_id : String) (patch : TaskPatch) (current_user : UserORM)
    (db : DB) : DB × Except HTTPError TaskORM :=
  match db.tasks.find? (fun t => t.id == task_id && t.user_id == current_user.id) with
  | none => (db, .error { status := 404, detail := "Задача не найдена" })
  | some task =>
    ({ db with
        tasks := db.tasks.map (fun t =>
          if t.id == task_id && t.user_id == current_user.id then apply_patch patch t
          else t) },
     .ok (apply_patch patch task))

/-- `delete_task` (`DELETE /tasks/{id}`, `status_code=204`): same ownership
filter, 404 when absent, otherwise remove the row. -/
def delete_task (task_id : String) (current_user : UserORM) (db : DB) :
    DB × Except HTTPError Unit :=
  match db.tasks.find? (fun t => t.id == task_id && t.user_id == current_user.id) with
  | none => (db, .error { status := 404, detail := "Задача не найдена" })
  | some _ =>
    ({ db with
        tasks := db.tasks.filter (fun t =>
          !(t.id == task_id && t.user_id == current_user.id)) },
     .ok ())

/-! ## Migration runner (`migrate_from_file_if_needed`, `on_startup`)

The legacy `tasks.json` content is modelled as a JSON value; `json.load`
is modelled by an `Option Json` (`none` = the file content is not valid
JSON, so `json.load` raises `JSONDecodeError`).  The uncaught Python
exceptions a run can raise are the `MigError` values. -/

/-- A parsed JSON value. -/
inductive Json where
  | null
  | bool (b : Bool)
  | num (n : Int)
  | str (s : String)
  | arr (elems : List Json)
  | obj (fields : List (String × Json))

/-- The uncaught exceptions the migration can raise. -/
inductive MigError where
  /-- `json.load` on content that is not valid JSON. -/
  | jsonDecodeError
  /-- `.get(...)` (or `.strip()`) on a value that is not a dict (str). -/
  | attributeError
  /-- `for t in x` over a non-iterable value. -/
  | typeError
deriving DecidableEq, Repr

/-- Python truthiness of a JSON value. -/
def truthy : Json → Bool
  | .null => false
  | .bool b => b
  | .num n => n != 0
  | .str s => s != ""
  | .arr xs => !xs.isEmpty
  | .obj fs => !fs.isEmpty

/-- `dict.get`-style lookup among the key/value pairs of a JSON object. -/
def jsonLookup (fields : List (String × Json)) (key : String) : Option Json :=
  (fields.find? (fun p => p.1 == key)).map (fun p => p.2)

/-- `t.get(key, default)`: raises `AttributeError` unless `t` is a dict. -/
def pyGet (t : Json) (key : String) (dflt : Json) : Except MigError Json :=
  match t with
  | .obj fields => .ok ((jsonLookup fields key).getD dflt)
  | _ => .error .attributeError

/-- `for x in v`: lists iterate over their elements, strings over their
characters, dicts over their keys; other values raise `TypeError`. -/
def pyIter : Json → Except MigError (List Json)
  | .arr xs => .ok xs
  | .str s => .ok (s.data.map (fun c => .str (String.mk [c])))
  | .obj fields => .ok (fields.map (fun p => .str p.1))
  | _ => .error .typeError

/-- The string stored in a `String` column for a given JSON value.  SQLite
stores non-string values loosely; this rendering is a modelling choice no
claim depends on (legacy records with string fields are stored verbatim). -/
def jsonScalarStr : Json → String
  | .str s => s
  | .bool true => "True"
  | .bool false => "False"
  | .null => "None"
  | .num n => toString n
  | .arr _ => "<list>"
  | .obj _ => "<dict>"

/-- One iteration of the migration loop: build a `TaskORM` row from a
legacy record `t`, synthesizing the missing fields exactly as the source
does (`t.get("id") or generate_id()`, `t.get("title") or
make_title(t.get("text", ""))`, and so on).  `gen_id` stands for the
`generate_id()` call of this iteration.  The `make_title` fallback invokes
`.strip()` on the raw text value and therefore raises `AttributeError` if
that value is not a string. -/
def migrate_item (gen_id nowIso demo_id : String) (t : Json) :
    Except MigError TaskORM := do
  let idv ← pyGet t "id" .null
  let textv ← pyGet t "text" (.str "")
  let titlev ← pyGet t "title" .null
  let catv ← pyGet t "category" .null
  let projv ← pyGet t "project" .null
  let datev ← pyGet t "date" .null
  let donev ← pyGet t "done" (.bool false)
  let cav ← pyGet t "createdAt" .null
  let cbv ← pyGet t "created_at" .null
  let title ←
    if truthy titlev then pure (jsonScalarStr titlev)
    else
      match textv with
      | .str s => pure (make_title s)
      | _ => throw .attributeError
  pure
    { id := if truthy idv then jsonScalarStr idv else gen_id
      text := jsonScalarStr textv
      title := title
      category := if truthy catv then jsonScalarStr catv else "work"
      project := if truthy projv then jsonScalarStr projv else ""
      date := match datev with | .null => none | v => some (jsonScalarStr v)
      done := truthy donev
      createdAt :=
        if truthy cav then jsonScalarStr cav
        else if truthy cbv then jsonScalarStr cbv
        else nowIso
      user_id := demo_id }

/-- The migration loop over the legacy records, with `gen n` standing for
the `generate_id()` call of the `n`-th iteration. -/
def migrate_tasks (gen : Nat → String) (nowIso demo_id : String)
    (items : List Json) : Except MigError (List TaskORM) :=
  items.enum.mapM (fun p => migrate_item (gen p.1) nowIso demo_id p.2)

/-- The filesystem facts the migration runner looks at. -/
structure FsState where
  /-- `os.path.exists("tasks.db")`. -/
  tasks_db_exists : Bool
  /-- The legacy `tasks.json`: `none` when the file does not exist;
  `some none` when it exists but its content is not valid JSON (so
  `json.load` raises); `some (some data)` when it parses to `data`. -/
  tasks_json : Option (Option Json)

/-- `migrate_from_file_if_needed`: do nothing when `tasks.db` already
exists or there is no legacy file; otherwise `json.load` the file (raising
on invalid JSON), take the task list (`data` itself when it is a list,
`data.get("tasks") or []` when it is a dict, `[]` otherwise), create the
demo user, and import every record under the demo user's ownership.
An `.error` outcome is an uncaught exception: startup fails. -/
def migrate_from_file_if_needed (sha : String → String) (salt : String)
    (demo_id nowIso : String) (gen : Nat → String)
    (fs : FsState) (db : DB) : Except MigError DB :=
  if fs.tasks_db_exists then .ok db
  else
    match fs.tasks_json with
    | none => .ok db
    | some none => .error .jsonDecodeError
    | some (some data) =>
      let tasks_data : Json :=
        match data with
        | .arr _ => data
        | .obj fields =>
          match jsonLookup fields "tasks" with
          | some v => if truthy v then v else .arr []
          | none => .arr []
        | _ => .arr []
      let demo_user : UserORM :=
        { id := demo_id
          email := "demo@local"
          name := "Demo user"
          password_hash := hash_password sha salt "demo"
          created_at := nowIso }
      let db1 := { db with users := db.users ++ [demo_user] }
      match pyIter tasks_data with
      | .error e => .error e
      | .ok items =>
        match migrate_tasks gen nowIso demo_id items with
        | .error e => .error e
        | .ok newTasks => .ok { db1 with tasks := db1.tasks ++ newTasks }

/-- `on_startup`: `Base.metadata.create_all(engine)` — which, under the
SQLite fallback (`DATABASE_URL` unset), creates the `./tasks.db` file —
followed by the migration.  An `.error` outcome means startup raised. -/
def on_startup (sha : String → String) (salt : String)
    (demo_id nowIso : String) (gen : Nat → String) (sqlite_fallback : Bool)
    (fs : FsState) (db : DB) : Except MigError (FsState × DB) :=
  let fs1 := if sqlite_fallback then { fs with tasks_db_exists := true } else fs
  match migrate_from_file_if_needed sha salt demo_id nowIso gen fs1 db with
  | .error e => .error e
  | .ok db1 => .ok (fs1, db1)

/-- The parsed legacy contents that yield no task list at all: not a JSON
list, and not a JSON object with a truthy `tasks` entry.  (The migration's
`tasks_data` computation maps exactly these to the empty list.) -/
def json_no_tasks : Json → Bool
  | .arr _ => false
  | .obj fields =>
    match jsonLookup fields "tasks" with
    | some v => !truthy v
    | none => true
  | _ => true

/-! ## Request traces

For the temporal session-lifecycle claim, the API surface is closed into a
single step function: an `Op` is one inbound request (with its fresh
uuid/timestamp values as fields), and `apply_op` is the database transition
it causes.  Failed requests leave the database unchanged (an
`HTTPException` aborts the request before any commit). -/

/-- One inbound API request together with the fresh values its handler
draws (`uuid4` results and timestamps). -/
inductive Op where
  | register (payload : UserCreate) (freshUserId freshToken nowIso : String)
  | login (payload : UserLogin) (freshToken : String)
  | logout (authorization : Option String)
  | listTasks (authorization : Option String)
  | createTask (authorization : Option String) (payload : TaskCreate)
      (freshTaskId nowIso : String)
  | patchTask (authorization : Option String) (task_id : String) (patch : TaskPatch)
  | deleteTask (authorization : Option String) (task_id : String)

/-- The database transition caused by one request. -/
def apply_op (sha : String → String) (salt : String) (op : Op) (db : DB) : DB :=
  match op with
  | .register payload uid tok now => (register_user sha salt uid tok now payload db).1
  | .login payload tok => (login_user sha salt tok payload db).1
  | .logout auth => (logout_user db auth).1
  | .listTasks _ => db
  | .createTask auth payload tid now =>
    match get_current_user db auth with
    | .error _ => db
    | .ok user => (create_task tid now payload user db).1
  | .patchTask auth task_id patch =>
    match get_current_user db auth with
    | .error _ => db
    | .ok user => (update_task task_id patch user db).1
  | .deleteTask auth task_id =>
    match get_current_user db auth with
    | .error _ => db
    | .ok user => (delete_task task_id user db).1

/-- The database state after a sequence of requests. -/
def apply_ops (sha : String → String) (salt : String) : List Op → DB → DB
  | [], db => db
  | op :: ops, db => apply_ops sha salt ops (apply_op sha salt op db)

/-- `op` issues the session token `t` (a fresh `uuid4().hex` drawn by a
successful-or-not register/login handler). -/
def issues (op : Op) (t : String) : Prop :=
  match op with
  | .register _ _ tok _ => tok = t
  | .login _ tok => tok = t
  | _ => False

/-- `op` is a logout request whose bearer header carries the token `t`. -/
def revokes (op : Op) (t : String) : Prop :=
  match op with
  | .logout auth => auth_token auth = some t
  | _ => False

/-- Freshness of the uuid-generated token values of a request: the session
store generates tokens "guaranteed unique among currently-issued tokens"
(collisions of `uuid4().hex` are treated as negligible). -/
def op_wf (op : Op) (db : DB) : Prop :=
  match op with
  | .register _ _ tok _ => tok ∉ db.sessions.map SessionORM.token
  | .login _ tok => tok ∉ db.sessions.map SessionORM.token
  | _ => True

/-- Freshness along a whole request sequence. -/
def trace_wf (sha : String → String) (salt : String) : List Op → DB → Prop
  | [], _ => True
  | op :: ops, db => op_wf op db ∧ trace_wf sha salt ops (apply_op sha salt op db)

/-- The database invariant the server maintains: session tokens are unique
(`token` is the primary key) and every session points at an existing user. -/
def db_inv (db : DB) : Prop :=
  (db.sessions.map SessionORM.token).Nodup ∧
  ∀ s ∈ db.sessions, ∃ u ∈ db.users, u.id = s.user_id

/-- All the state the resolution of one issued token `t` for user id `u`
depends on: every session row carrying `t` is exactly `(t, u)`, that row is
present, and a user row with id `u` exists. -/
def tracks (t u : String) (db : DB) : Prop :=
  (∀ s ∈ db.sessions, s.token = t → s = { token := t, user_id := u }) ∧
  ({ token := t, user_id := u } : SessionORM) ∈ db.sessions ∧
  ∃ usr ∈ db.users, usr.id = u

/-- A well-formed issued token: `uuid4().hex` values are nonempty and have
no surrounding whitespace. -/
def token_wf (t : String) : Prop := py_strip t = t ∧ t ≠ ""

/-! ## Concrete fixtures used by the witnesses -/

/-- The user row `register_user` inserts for a fresh email (an abbreviation
for proofs; it is exactly the record built inside `register_user`). -/
def registered_user (sha : String → String) (salt uid now : String)
    (payload : UserCreate) : UserORM :=
  { id := uid
    email := py_strip (py_lower payload.email)
    name := if py_strip payload.name == "" then py_strip (py_lower payload.email)
      else py_strip payload.name
    password_hash := hash_password sha salt payload.password
    created_at := now }

/-- Fixture user `uA`. -/
def wUserA : UserORM :=
  { id := "uA", email := "a@x.com", name := "A",
    password_hash := "h", created_at := "2024-01-01T00:00:00" }

/-- Fixture user `uB`. -/
def wUserB : UserORM :=
  { id := "uB", email := "b@x.com", name := "B",
    password_hash := "h", created_at := "2024-01-01T00:00:00" }

/-- Fixture task owned by `uA`. -/
def wTask : TaskORM :=
  { id := "t1", text := "write the release notes", title := "write the release notes",
    category := "work", project := "", date := none, done := false,
    createdAt := "2024-01-01T00:00:00", user_id := "uA" }

/-- Fixture database: two users, one session for `uA`, one task of `uA`. -/
def wDB : DB :=
  { users := [wUserA, wUserB],
    sessions := [{ token := "tokA", user_id := "uA" }],
    tasks := [wTask] }

/-- Fixture patch setting only the completion flag. -/
def wPatchDone : TaskPatch :=
  { text := none, category := none, project := none, date := none, done := some true }

/-- Fixture patch carrying only a whitespace-only body. -/
def wPatchBlank : TaskPatch :=
  { text := some "  ", category := none, project := none, date := none, done := none }

/-! ## Helper lemmas: Python word splitting -/

lemma pywords_cons_ws {c : Char} (h : c.isWhitespace = true) (l : List Char) :
    pywords (c :: l) = pywords l := by
  simp [pywords, pywords_core, pywords_step, h]

lemma pywords_dropWhile (l : List Char) :
    pywords (l.dropWhile Char.isWhitespace) = pywords l := by
  induction l with
  | nil => rfl
  | cons c cs ih =>
    by_cases h : c.isWhitespace
    · rw [List.dropWhile_cons, if_pos h, ih, pywords_cons_ws h]
    · rw [List.dropWhile_cons, if_neg h]

lemma pywords_core_all_ws {l : List Char} (h : ∀ c ∈ l, c.isWhitespace = true) :
    pywords_core l = List.replicate l.length [] := by
  induction l with
  | nil => rfl
  | cons c cs ih =>
    have hc : c.isWhitespace = true := h c (List.mem_cons_self c cs)
    have ih2 := ih (fun d hd => h d (List.mem_cons_of_mem c hd))
    show pywords_step c (pywords_core cs) = List.replicate (cs.length + 1) []
    rw [ih2, List.replicate_succ]
    simp [pywords_step, hc]

lemma filter_replicate_nil (m : Nat) :
    (List.replicate m ([] : List Char)).filter (fun w => !w.isEmpty) = [] := by
  apply List.filter_eq_nil_iff.mpr
  intro a ha
  rw [List.eq_of_mem_replicate ha]
  simp

lemma pywords_all_ws {l : List Char} (h : ∀ c ∈ l, c.isWhitespace = true) :
    pywords l = [] := by
  rw [pywords, pywords_core_all_ws h, filter_replicate_nil]

lemma foldr_step_replicate (u : List Char) (n : Nat) :
    ∃ m, u.foldr pywords_step (List.replicate n []) =
      u.foldr pywords_step [] ++ List.replicate m [] := by
  induction u generalizing n with
  | nil => exact ⟨n, by simp⟩
  | cons c cs ih =>
    obtain ⟨m, hm⟩ := ih n
    rw [List.foldr_cons, List.foldr_cons, hm]
    by_cases hc : c.isWhitespace
    · exact ⟨m, by simp [pywords_step, hc]⟩
    · cases h0 : cs.foldr pywords_step [] with
      | nil =>
        cases m with
        | zero => exact ⟨0, by simp [pywords_step, hc, h0]⟩
        | succ m2 =>
          refine ⟨m2, ?_⟩
          simp [pywords_step, hc, h0, List.replicate_succ]
      | cons w ws => exact ⟨m, by simp [pywords_step, hc, h0]⟩

lemma pywords_append_ws {t : List Char} (ht : ∀ c ∈ t, c.isWhitespace = true)
    (u : List Char) : pywords (u ++ t) = pywords u := by
  obtain ⟨m, hm⟩ := foldr_step_replicate u t.length
  have hcore : pywords_core t = List.replicate t.length [] := pywords_core_all_ws ht
  rw [pywords, pywords_core, List.foldr_append]
  rw [show t.foldr pywords_step [] = List.replicate t.length [] from hcore, hm,
    List.filter_append, filter_replicate_nil, List.append_nil]
  rfl

lemma pywords_strip (l : List Char) : pywords (strip_list l) = pywords l := by
  rw [strip_list]
  have hsplit : l.dropWhile Char.isWhitespace =
      ((l.dropWhile Char.isWhitespace).reverse.dropWhile Char.isWhitespace).reverse ++
      ((l.dropWhile Char.isWhitespace).reverse.takeWhile Char.isWhitespace).reverse := by
    conv_lhs =>
      rw [← List.reverse_reverse (l.dropWhile Char.isWhitespace),
        ← List.takeWhile_append_dropWhile Char.isWhitespace
          (l.dropWhile Char.isWhitespace).reverse]
    rw [List.reverse_append]
  have hT : ∀ c ∈ ((l.dropWhile Char.isWhitespace).reverse.takeWhile
      Char.isWhitespace).reverse, c.isWhitespace = true := by
    intro c hc
    exact List.mem_takeWhile_imp (List.mem_reverse.mp hc)
  calc pywords ((l.dropWhile Char.isWhitespace).reverse.dropWhile Char.isWhitespace).reverse
      = pywords (((l.dropWhile Char.isWhitespace).reverse.dropWhile Char.isWhitespace).reverse ++
          ((l.dropWhile Char.isWhitespace).reverse.takeWhile Char.isWhitespace).reverse) :=
        (pywords_append_ws hT _).symm
    _ = pywords (l.dropWhile Char.isWhitespace) := by rw [← hsplit]
    _ = pywords l := pywords_dropWhile l

lemma pywords_ne_nil_of_not_ws {c : Char} (cs : List Char)
    (h : c.isWhitespace = false) : pywords (c :: cs) ≠ [] := by
  show (pywords_step c (pywords_core cs)).filter (fun w => !w.isEmpty) ≠ []
  cases h0 : pywords_core cs with
  | nil => simp [pywords_step, h]
  | cons w ws => simp [pywords_step, h]

lemma all_ws_of_pywords_eq_nil {l : List Char} (h : pywords l = []) :
    ∀ c ∈ l, c.isWhitespace = true := by
  induction l with
  | nil => simp
  | cons c cs ih =>
    by_cases hc : c.isWhitespace
    · rw [pywords_cons_ws hc] at h
      intro d hd
      rcases List.mem_cons.mp hd with h1 | h2
      · rw [h1]; exact hc
      · exact ih h d h2
    · exact absurd h (pywords_ne_nil_of_not_ws cs (by simp [hc]))

lemma strip_list_eq_nil_of_all_ws {l : List Char}
    (h : ∀ c ∈ l, c.isWhitespace = true) : strip_list l = [] := by
  rw [strip_list, List.dropWhile_eq_nil_iff.mpr h]
  rfl

lemma pywords_strip_ne_nil {s : String} (h : py_strip s ≠ "") :
    pywords (py_strip s).data ≠ [] := by
  intro hw
  apply h
  have h1 : pywords (strip_list s.data) = [] := hw
  rw [pywords_strip] at h1
  show String.mk (strip_list s.data) = ""
  rw [strip_list_eq_nil_of_all_ws (all_ws_of_pywords_eq_nil h1)]

/-! ## Helper lemmas: `find?` -/

lemma find?_append_of_none {α} {p : α → Bool} {l₁ : List α} (l₂ : List α)
    (h : l₁.find? p = none) : (l₁ ++ l₂).find? p = l₂.find? p := by
  induction l₁ with
  | nil => rfl
  | cons a as ih =>
    have ha : ¬ p a = true := by
      intro hpa
      rw [List.find?_cons_of_pos as hpa] at h
      cases h
    have has : as.find? p = none := by
      rw [List.find?_cons_of_neg as ha] at h
      exact h
    rw [List.cons_append, List.find?_cons_of_neg _ ha, ih has]

lemma find?_eq_of_unique {α} {p : α → Bool} {l : List α} {a : α}
    (ha : a ∈ l) (hp : p a = true) (huniq : ∀ x ∈ l, p x = true → x = a) :
    l.find? p = some a := by
  induction l with
  | nil => cases ha
  | cons b bs ih =>
    by_cases hb : p b = true
    · rw [List.find?_cons_of_pos bs hb, huniq b (List.mem_cons_self b bs) hb]
    · rw [List.find?_cons_of_neg bs hb]
      have hab : a ≠ b := fun he => hb (he ▸ hp)
      have ha2 : a ∈ bs := by
        rcases List.mem_cons.mp ha with h1 | h2
        · exact absurd h1 hab
        · exact h2
      exact ih ha2 (fun x hx hpx => huniq x (List.mem_cons_of_mem b hx) hpx)

lemma find?_isSome_of_exists {α} {p : α → Bool} {l : List α}
    (h : ∃ a ∈ l, p a = true) : ∃ b, l.find? p = some b ∧ p b = true := by
  obtain ⟨a, ha, hp⟩ := h
  cases hf : l.find? p with
  | none => exact absurd hp (List.find?_eq_none.mp hf a ha)
  | some b => exact ⟨b, rfl, List.find?_some hf⟩

/-! ## Helper lemmas: bearer-header parsing -/

lemma isPrefixOf_append_self {α} [BEq α] [LawfulBEq α] (l m : List α) :
    l.isPrefixOf (l ++ m) = true := by
  induction l with
  | nil => simp [List.isPrefixOf]
  | cons a as ih => simp [List.isPrefixOf, ih]

lemma after_first_space_bearer (l : List Char) :
    after_first_space ("Bearer ".data ++ l) = l := rfl

lemma split_space_once_rest_bearer (t : String) :
    split_space_once_rest ("Bearer " ++ t) = t := by
  rw [split_space_once_rest, String.data_append, after_first_space_bearer]

lemma py_startswith_bearer (t : String) :
    py_startswith "Bearer " ("Bearer " ++ t) = true := by
  rw [py_startswith, String.data_append]
  exact isPrefixOf_append_self _ _

lemma auth_token_bearer {t : String} (h : token_wf t) :
    auth_token (some ("Bearer " ++ t)) = some t := by
  obtain ⟨h1, h2⟩ := h
  rw [auth_token]
  rw [if_pos (py_startswith_bearer t), split_space_once_rest_bearer, h1]
  rw [if_neg (by simpa using h2)]

lemma auth_token_bearer_blank {w : String} (h : py_strip w = "") :
    auth_token (some ("Bearer " ++ w)) = none := by
  rw [auth_token]
  rw [if_pos (py_startswith_bearer w), split_space_once_rest_bearer, h]
  simp

/-! ## Helper lemmas: request-step preservation -/

lemma create_task_frame (freshId nowIso : String) (payload : TaskCreate)
    (user : UserORM) (db : DB) :
    (create_task freshId nowIso payload user db).1.users = db.users ∧
    (create_task freshId nowIso payload user db).1.sessions = db.sessions := by
  rw [create_task]
  split
  · exact ⟨rfl, rfl⟩
  · exact ⟨rfl, rfl⟩

lemma update_task_frame (task_id : String) (patch : TaskPatch) (user : UserORM)
    (db : DB) :
    (update_task task_id patch user db).1.users = db.users ∧
    (update_task task_id patch user db).1.sessions = db.sessions := by
  rw [update_task]
  cases db.tasks.find? (fun t => t.id == task_id && t.user_id == user.id) with
  | none => exact ⟨rfl, rfl⟩
  | some task => exact ⟨rfl, rfl⟩

lemma delete_task_frame (task_id : String) (user : UserORM) (db : DB) :
    (delete_task task_id user db).1.users = db.users ∧
    (delete_task task_id user db).1.sessions = db.sessions := by
  rw [delete_task]
  cases db.tasks.find? (fun t => t.id == task_id && t.user_id == user.id) with
  | none => exact ⟨rfl, rfl⟩
  | some task => exact ⟨rfl, rfl⟩

lemma apply_op_users_mono (sha : String → String) (salt : String) (op : Op)
    (db : DB) {u : UserORM} (hu : u ∈ db.users) :
    u ∈ (apply_op sha salt op db).users := by
  cases op with
  | register payload uid tok now =>
    simp only [apply_op, register_user, create_session]
    split
    · exact hu
    · exact List.mem_append_left _ hu
  | login payload tok =>
    simp only [apply_op, login_user, create_session]
    split
    · exact hu
    · split
      · exact hu
      · exact hu
  | logout auth =>
    simp only [apply_op, logout_user]
    cases auth_token auth with
    | none => exact hu
    | some tok => exact hu
  | listTasks auth => exact hu
  | createTask auth payload tid now =>
    simp only [apply_op]
    cases get_current_user db auth with
    | error e => exact hu
    | ok user => rw [(create_task_frame tid now payload user db).1]; exact hu
  | patchTask auth task_id patch =>
    simp only [apply_op]
    cases get_current_user db auth with
    | error e => exact hu
    | ok user => rw [(update_task_frame task_id patch user db).1]; exact hu
  | deleteTask auth task_id =>
    simp only [apply_op]
    cases get_current_user db auth with
    | error e => exact hu
    | ok user => rw [(delete_task_frame task_id user db).1]; exact hu

lemma apply_op_sessions_shape (sha : String → String) (salt : String) (op : Op)
    (db : DB) :
    (apply_op sha salt op db).sessions = db.sessions ∨
    (∃ ns : SessionORM, (apply_op sha salt op db).sessions = db.sessions ++ [ns] ∧
      issues op ns.token) ∨
    (∃ tok, revokes op tok ∧
      (apply_op sha salt op db).sessions =
        db.sessions.filter (fun s => !(s.token == tok))) := by
  cases op with
  | register payload uid tok now =>
    simp only [apply_op, register_user, create_session]
    split
    · exact Or.inl rfl
    · exact Or.inr (Or.inl ⟨{ token := tok, user_id := uid }, rfl, rfl⟩)
  | login payload tok =>
    simp only [apply_op, login_user, create_session]
    split
    · exact Or.inl rfl
    · split
      · exact Or.inr (Or.inl ⟨{ token := tok, user_id := _ }, rfl, rfl⟩)
      · exact Or.inl rfl
  | logout auth =>
    simp only [apply_op, logout_user]
    cases h : auth_token auth with
    | none => exact Or.inl rfl
    | some tok => exact Or.inr (Or.inr ⟨tok, h, rfl⟩)
  | listTasks auth => exact Or.inl rfl
  | createTask auth payload tid now =>
    simp only [apply_op]
    cases get_current_user db auth with
    | error e => exact Or.inl rfl
    | ok user => exact Or.inl (create_task_frame tid now payload user db).2
  | patchTask auth task_id patch =>
    simp only [apply_op]
    cases get_current_user db auth with
    | error e => exact Or.inl rfl
    | ok user => exact Or.inl (update_task_frame task_id patch user db).2
  | deleteTask auth task_id =>
    simp only [apply_op]
    cases get_current_user db auth with
    | error e => exact Or.inl rfl
    | ok user => exact Or.inl (delete_task_frame task_id user db).2

lemma issues_fresh {op : Op} {db : DB} {tok : String} (hiss : issues op tok)
    (hwf : op_wf op db) : tok ∉ db.sessions.map SessionORM.token := by
  cases op with
  | register payload uid tk now => rw [issues] at hiss; rw [← hiss]; exact hwf
  | login payload tk => rw [issues] at hiss; rw [← hiss]; exact hwf
  | logout auth => cases hiss
  | listTasks auth => cases hiss
  | createTask auth payload tid now => cases hiss
  | patchTask auth task_id patch => cases hiss
  | deleteTask auth task_id => cases hiss

lemma tracks_step {t u : String} {db : DB} (sha : String → String) (salt : String)
    (op : Op) (htr : tracks t u db) (hwf : op_wf op db) (hnorev : ¬ revokes op t) :
    tracks t u (apply_op sha salt op db) := by
  obtain ⟨huniq, hmem, husr⟩ := htr
  have ht_tok : t ∈ db.sessions.map SessionORM.token :=
    List.mem_map.mpr ⟨_, hmem, rfl⟩
  rcases apply_op_sessions_shape sha salt op db with hs | ⟨ns, hs, hiss⟩ | ⟨tok, hrev, hs⟩
  · refine ⟨?_, ?_, ?_⟩
    · rw [hs]; exact huniq
    · rw [hs]; exact hmem
    · obtain ⟨usr, husr2, hid⟩ := husr
      exact ⟨usr, apply_op_users_mono sha salt op db husr2, hid⟩
  · have hne : ns.token ≠ t := by
      intro he
      exact (issues_fresh hiss hwf) (he ▸ ht_tok)
    refine ⟨?_, ?_, ?_⟩
    · rw [hs]
      intro s hsmem hst
      rcases List.mem_append.mp hsmem with h1 | h2
      · exact huniq s h1 hst
      · rw [List.mem_singleton.mp h2] at hst
        exact absurd hst hne
    · rw [hs]; exact List.mem_append_left _ hmem
    · obtain ⟨usr, husr2, hid⟩ := husr
      exact ⟨usr, apply_op_users_mono sha salt op db husr2, hid⟩
  · have hne : tok ≠ t := fun he => hnorev (he ▸ hrev)
    refine ⟨?_, ?_, ?_⟩
    · rw [hs]
      intro s hsmem hst
      exact huniq s (List.mem_filter.mp hsmem).1 hst
    · rw [hs]
      apply List.mem_filter.mpr
      refine ⟨hmem, ?_⟩
      simp only [Bool.not_eq_eq_eq_not, Bool.not_true, beq_eq_false_iff_ne, ne_eq]
      exact fun he => hne he.symm
    · obtain ⟨usr, husr2, hid⟩ := husr
      exact ⟨usr, apply_op_users_mono sha salt op db husr2, hid⟩

lemma tracks_apply_ops {t u : String} (sha : String → String) (salt : String)
    (ops : List Op) : ∀ db : DB, tracks t u db → trace_wf sha salt ops db →
    (∀ op ∈ ops, ¬ revokes op t) → tracks t u (apply_ops sha salt ops db) := by
  induction ops with
  | nil => exact fun db h _ _ => h
  | cons op ops ih =>
    intro db htr hwf hnr
    exact ih _ (tracks_step sha salt op htr hwf.1 (hnr op (List.mem_cons_self op ops)))
      hwf.2 (fun o ho => hnr o (List.mem_cons_of_mem op ho))

lemma not_issued_step (sha : String → String) (salt : String) (op : Op) (db : DB)
    {t : String} (hno : t ∉ db.sessions.map SessionORM.token) (hni : ¬ issues op t) :
    t ∉ (apply_op sha salt op db).sessions.map SessionORM.token := by
  rcases apply_op_sessions_shape sha salt op db with hs | ⟨ns, hs, hiss⟩ | ⟨tok, _, hs⟩ <;>
    rw [hs]
  · exact hno
  · intro hmem
    obtain ⟨s, hsmem, hst⟩ := List.mem_map.mp hmem
    rcases List.mem_append.mp hsmem with h1 | h2
    · exact hno (List.mem_map.mpr ⟨s, h1, hst⟩)
    · rw [List.mem_singleton.mp h2] at hst
      exact hni (hst ▸ hiss)
  · intro hmem
    obtain ⟨s, hsmem, hst⟩ := List.mem_map.mp hmem
    exact hno (List.mem_map.mpr ⟨s, (List.mem_filter.mp hsmem).1, hst⟩)

lemma not_issued_apply_ops (sha : String → String) (salt : String) (ops : List Op)
    {t : String} : ∀ db : DB, t ∉ db.sessions.map SessionORM.token →
    (∀ op ∈ ops, ¬ issues op t) →
    t ∉ (apply_ops sha salt ops db).sessions.map SessionORM.token := by
  induction ops with
  | nil => exact fun db h _ => h
  | cons op ops ih =>
    intro db hno hni
    exact ih _ (not_issued_step sha salt op db hno (hni op (List.mem_cons_self op ops)))
      (fun o ho => hni o (List.mem_cons_of_mem op ho))

lemma logout_removes_token (sha : String → String) (salt : String) {t : String}
    (htok : token_wf t) (db : DB) :
    t ∉ (apply_op sha salt (Op.logout (some ("Bearer " ++ t))) db).sessions.map
      SessionORM.token := by
  simp only [apply_op, logout_user, auth_token_bearer htok]
  intro hmem
  obtain ⟨s, hsmem, hst⟩ := List.mem_map.mp hmem
  have h2 := (List.mem_filter.mp hsmem).2
  rw [hst] at h2
  simp at h2

/-! ## Helper lemmas: token resolution -/

lemma get_current_user_tracks {t u : String} {db : DB} (htr : tracks t u db)
    (htok : token_wf t) :
    ∃ usr, get_current_user db (some ("Bearer " ++ t)) = .ok usr ∧ usr.id = u := by
  obtain ⟨huniq, hmem, usr0, husr0, hid0⟩ := htr
  have hfind : db.sessions.find? (fun s => s.token == t) =
      some { token := t, user_id := u } := by
    apply find?_eq_of_unique hmem (by simp)
    intro x hx hpx
    exact huniq x hx (by simpa using hpx)
  obtain ⟨usr, hfu, hpu⟩ :=
    find?_isSome_of_exists (l := db.users) (p := fun x => x.id == u)
      ⟨usr0, husr0, by simpa using hid0⟩
  simp only [get_current_user, auth_token_bearer htok, hfind, hfu]
  exact ⟨usr, rfl, by simpa using hpu⟩

lemma get_current_user_unknown {t : String} {db : DB} (htok : token_wf t)
    (hno : t ∉ db.sessions.map SessionORM.token) :
    get_current_user db (some ("Bearer " ++ t)) =
      .error { status := 401, detail := "Токен недействителен" } := by
  have hfind : db.sessions.find? (fun s => s.token == t) = none := by
    apply List.find?_eq_none.mpr
    intro s hs hbeq
    exact hno (List.mem_map.mpr ⟨s, hs, by simpa using hbeq⟩)
  simp only [get_current_user, auth_token_bearer htok, hfind]

/-! ## Helper lemmas: task listing -/

lemma mem_insert_by (le : TaskORM → TaskORM → Bool) (a x : TaskORM)
    (l : List TaskORM) : x ∈ insert_by le a l ↔ x = a ∨ x ∈ l := by
  induction l with
  | nil => simp [insert_by]
  | cons b bs ih =>
    rw [insert_by]
    split
    · rw [List.mem_cons, List.mem_cons]
    · rw [List.mem_cons, ih, List.mem_cons]
      tauto

lemma mem_sort_by (le : TaskORM → TaskORM → Bool) (x : TaskORM)
    (l : List TaskORM) : x ∈ sort_by le l ↔ x ∈ l := by
  induction l with
  | nil => simp [sort_by]
  | cons a as ih => rw [sort_by, mem_insert_by, ih, List.mem_cons]

/-- Field-by-field characterization of `apply_patch`. -/
lemma apply_patch_fields (p : TaskPatch) (task : TaskORM) :
    (apply_patch p task).id = task.id ∧
    (apply_patch p task).user_id = task.user_id ∧
    (apply_patch p task).createdAt = task.createdAt ∧
    (apply_patch p task).text = p.text.getD task.text ∧
    (apply_patch p task).title =
      (match p.text with | some s => make_title s | none => task.title) ∧
    (apply_patch p task).category = p.category.getD task.category ∧
    (apply_patch p task).project = p.project.getD task.project ∧
    (apply_patch p task).date =
      (match p.date with | some d => some d | none => task.date) ∧
    (apply_patch p task).done = p.done.getD task.done := by
  obtain ⟨pt, pc, pp, pd, pb⟩ := p
  cases pt <;> cases pc <;> cases pp <;> cases pd <;> cases pb <;>
    simp [apply_patch]

/-- The ownership-scoped `find?` of `update_task`/`delete_task` returns the
task itself when the caller owns it and ids are unique. -/
lemma find?_owned {db : DB} {task : TaskORM} {A : UserORM} (hmem : task ∈ db.tasks)
    (hids : (db.tasks.map TaskORM.id).Nodup) (howner : task.user_id = A.id) :
    db.tasks.find? (fun x => x.id == task.id && x.user_id == A.id) = some task := by
  apply find?_eq_of_unique hmem (by simp [howner])
  intro x hx hpx
  simp only [Bool.and_eq_true, beq_iff_eq] at hpx
  exact List.inj_on_of_nodup_map hids hx hmem hpx.1

/-- The migration loop is trivial on an empty record list. -/
lemma migrate_tasks_nil (gen : Nat → String) (nowIso demo_id : String) :
    migrate_tasks gen nowIso demo_id [] = .ok [] := rfl

/-! ## Claims -/

/-- C1: a task owned by A is invisible and immutable for any other user B:
`list` under B omits it, and `patch`/`delete` under B return 404 and leave
the database (in particular the stored task record) unchanged. -/
theorem C1_owner_isolation (db : DB) (task : TaskORM) (B : UserORM) (p : TaskPatch)
    (hmem : task ∈ db.tasks) (hids : (db.tasks.map TaskORM.id).Nodup)
    (hB : B.id ≠ task.user_id) :
    task ∉ get_tasks db B ∧
    update_task task.id p B db =
      (db, .error { status := 404, detail := "Задача не найдена" }) ∧
    delete_task task.id B db =
      (db, .error { status := 404, detail := "Задача не найдена" }) := by
  have hfind : db.tasks.find? (fun t => t.id == task.id && t.user_id == B.id) = none := by
    apply List.find?_eq_none.mpr
    intro x hx hpx
    simp only [Bool.and_eq_true, beq_iff_eq] at hpx
    have hxid : x = task := List.inj_on_of_nodup_map hids hx hmem hpx.1
    exact hB (by rw [← hpx.2, hxid])
  refine ⟨?_, ?_, ?_⟩
  · intro hmem2
    rw [get_tasks, mem_sort_by] at hmem2
    have h2 := (List.mem_filter.mp hmem2).2
    simp only [beq_iff_eq] at h2
    exact hB h2.symm
  · rw [update_task, hfind]
  · rw [delete_task, hfind]

/-- C1 witness at a concrete database. -/
theorem C1_owner_isolation_witness :
    wTask ∉ get_tasks wDB wUserB ∧
    update_task wTask.id wPatchDone wUserB wDB =
      (wDB, .error { status := 404, detail := "Задача не найдена" }) ∧
    delete_task wTask.id wUserB wDB =
      (wDB, .error { status := 404, detail := "Задача не найдена" }) :=
  C1_owner_isolation wDB wTask wUserB wPatchDone (by decide) (by decide) (by decide)

/-- C2: a token issued for user `u` resolves (through the auth gate, from a
`Bearer` header) to `u` in every state reachable without revoking it; after
a logout carrying the token, resolution fails with 401 in every further
state that does not re-issue it; and resolution fails with 401 for a
missing header, a blank token, and a never-issued token. -/
theorem C2_session_lifecycle (sha : String → String) (salt : String) (db : DB)
    (t u : String) (hinv : db_inv db)
    (hmem : ({ token := t, user_id := u } : SessionORM) ∈ db.sessions)
    (htok : token_wf t) :
    (∀ ops, trace_wf sha salt ops db → (∀ op ∈ ops, ¬ revokes op t) →
      ∃ usr, get_current_user (apply_ops sha salt ops db) (some ("Bearer " ++ t)) =
        .ok usr ∧ usr.id = u) ∧
    (∀ (db2 : DB) (ops : List Op), (∀ op ∈ ops, ¬ issues op t) →
      get_current_user
        (apply_ops sha salt ops (apply_op sha salt (.logout (some ("Bearer " ++ t))) db2))
        (some ("Bearer " ++ t)) =
        .error { status := 401, detail := "Токен недействителен" }) ∧
    (get_current_user db none = .error { status := 401, detail := "Не авторизовано" }) ∧
    (∀ w, py_strip w = "" → get_current_user db (some ("Bearer " ++ w)) =
      .error { status := 401, detail := "Не авторизовано" }) ∧
    (∀ t2, token_wf t2 → t2 ∉ db.sessions.map SessionORM.token →
      get_current_user db (some ("Bearer " ++ t2)) =
        .error { status := 401, detail := "Токен недействителен" }) := by
  have htr : tracks t u db := by
    obtain ⟨hnd, hval⟩ := hinv
    refine ⟨?_, hmem, ?_⟩
    · intro s hs hst
      exact List.inj_on_of_nodup_map hnd hs hmem hst
    · obtain ⟨usr, husr, hid⟩ := hval _ hmem
      exact ⟨usr, husr, hid⟩
  refine ⟨?_, ?_, rfl, ?_, ?_⟩
  · intro ops hwf hnr
    exact get_current_user_tracks (tracks_apply_ops sha salt ops db htr hwf hnr) htok
  · intro db2 ops hni
    apply get_current_user_unknown htok
    exact not_issued_apply_ops sha salt ops _ (logout_removes_token sha salt htok db2) hni
  · intro w hw
    simp only [get_current_user, auth_token_bearer_blank hw]
  · intro t2 ht2 hno2
    exact get_current_user_unknown ht2 hno2

/-- C2 witness: the fixture token of `wDB` resolves to its issuing user. -/
theorem C2_session_lifecycle_witness :
    ∃ usr, get_current_user (apply_ops (fun s => s) "retro-planner-salt" [] wDB)
      (some ("Bearer " ++ "tokA")) = .ok usr ∧ usr.id = "uA" :=
  (C2_session_lifecycle (fun s => s) "retro-planner-salt" wDB "tokA" "uA"
      ⟨by decide, by decide⟩ (by decide) ⟨by decide, by decide⟩).1 [] trivial (by simp)

/-- C3: on a state where the normalized email is not yet registered,
`register` succeeds, and `login` with the same email and password then
succeeds and returns the same user id (which is the freshly generated one). -/
theorem C3_register_then_login (sha : String → String)
    (salt uid tok1 tok2 now : String) (payload : UserCreate) (db : DB)
    (hfresh : ∀ x ∈ db.users, x.email ≠ py_strip (py_lower payload.email)) :
    ∃ db1 user db2 user2,
      register_user sha salt uid tok1 now payload db = (db1, .ok (tok1, user)) ∧
      login_user sha salt tok2 { email := payload.email, password := payload.password }
        db1 = (db2, .ok (tok2, user2)) ∧
      user2.id = user.id ∧ user.id = uid := by
  have hfind : db.users.find? (fun x => x.email == py_strip (py_lower payload.email)) =
      none := by
    apply List.find?_eq_none.mpr
    intro x hx hbeq
    exact hfresh x hx (by simpa using hbeq)
  have hreg : register_user sha salt uid tok1 now payload db =
      ({ users := db.users ++ [registered_user sha salt uid now payload],
         sessions := db.sessions ++ [{ token := tok1, user_id := uid }],
         tasks := db.tasks }, .ok (tok1, registered_user sha salt uid now payload)) := by
    simp only [register_user, hfind, create_session, registered_user]
  have hfind2 : (db.users ++ [registered_user sha salt uid now payload]).find?
      (fun x => x.email == py_strip (py_lower payload.email)) =
      some (registered_user sha salt uid now payload) := by
    rw [find?_append_of_none _ hfind]
    apply List.find?_cons_of_pos
    simp [registered_user]
  have hlog : login_user sha salt tok2
      { email := payload.email, password := payload.password }
      { users := db.users ++ [registered_user sha salt uid now payload],
        sessions := db.sessions ++ [{ token := tok1, user_id := uid }],
        tasks := db.tasks } =
      ({ users := db.users ++ [registered_user sha salt uid now payload],
         sessions := (db.sessions ++ [{ token := tok1, user_id := uid }]) ++
           [{ token := tok2, user_id := uid }],
         tasks := db.tasks }, .ok (tok2, registered_user sha salt uid now payload)) := by
    simp only [login_user, create_session]
    rw [hfind2]
    simp [verify_password, hash_password, registered_user]
  exact ⟨_, _, _, _, hreg, hlog, rfl, rfl⟩

/-- C3 witness: concrete register-then-login round trip. -/
theorem C3_register_then_login_witness :
    ∃ db1 user db2 user2,
      register_user (fun s => s) "retro-planner-salt" "u9" "tk1" "2024-01-01T00:00:00"
        { email := "New@X.com", name := " Neo ", password := "pw1" }
        { users := [], sessions := [], tasks := [] } = (db1, .ok ("tk1", user)) ∧
      login_user (fun s => s) "retro-planner-salt" "tk2"
        { email := "New@X.com", password := "pw1" } db1 = (db2, .ok ("tk2", user2)) ∧
      user2.id = user.id ∧ user.id = "u9" :=
  C3_register_then_login (fun s => s) "retro-planner-salt" "u9" "tk1" "tk2"
    "2024-01-01T00:00:00" { email := "New@X.com", name := " Neo ", password := "pw1" }
    { users := [], sessions := [], tasks := [] } (by decide)

/-- C4 (amended): when the legacy file parses as JSON but yields no task
list (not a list, nor an object with a truthy `tasks` entry), the migration
treats it as zero tasks to import and returns normally, adding only the
demo user and no task; invalid JSON, by contrast, raises (see the
counterexample). -/
theorem C4_wrong_shape_tolerated (sha : String → String)
    (salt demo_id nowIso : String) (gen : Nat → String) (data : Json) (db : DB)
    (hshape : json_no_tasks data = true) :
    migrate_from_file_if_needed sha salt demo_id nowIso gen
      { tasks_db_exists := false, tasks_json := some (some data) } db =
      .ok { users := db.users ++
                [{ id := demo_id, email := "demo@local", name := "Demo user",
                   password_hash := hash_password sha salt "demo",
                   created_at := nowIso }],
            sessions := db.sessions, tasks := db.tasks } := by
  cases data with
  | arr xs => simp [json_no_tasks] at hshape
  | obj fields =>
    cases h : jsonLookup fields "tasks" with
    | none => simp [migrate_from_file_if_needed, h, pyIter, migrate_tasks_nil]
    | some v =>
      have hv : truthy v = false := by
        simp only [json_no_tasks, h, Bool.not_eq_true'] at hshape
        exact hshape
      simp [migrate_from_file_if_needed, h, hv, pyIter, migrate_tasks_nil]
  | null => simp [migrate_from_file_if_needed, pyIter, migrate_tasks_nil]
  | bool b => simp [migrate_from_file_if_needed, pyIter, migrate_tasks_nil]
  | num n => simp [migrate_from_file_if_needed, pyIter, migrate_tasks_nil]
  | str s => simp [migrate_from_file_if_needed, pyIter, migrate_tasks_nil]

/-- C4 witness: a concrete wrong-shape legacy content (a bare JSON string)
is tolerated as zero tasks. -/
theorem C4_wrong_shape_tolerated_witness :
    migrate_from_file_if_needed (fun s => s) "retro-planner-salt" "demo"
      "2024-01-01T00:00:00" (fun _ => "gid")
      { tasks_db_exists := false, tasks_json := some (some (.str "oops")) }
      { users := [], sessions := [], tasks := [] } =
      .ok { users := ({ users := [], sessions := [], tasks := [] } : DB).users ++
                [{ id := "demo", email := "demo@local", name := "Demo user",
                   password_hash :=
                     hash_password (fun s => s) "retro-planner-salt" "demo",
                   created_at := "2024-01-01T00:00:00" }],
            sessions := ({ users := [], sessions := [], tasks := [] } : DB).sessions,
            tasks := ({ users := [], sessions := [], tasks := [] } : DB).tasks } :=
  C4_wrong_shape_tolerated (fun s => s) "retro-planner-salt" "demo"
    "2024-01-01T00:00:00" (fun _ => "gid") (.str "oops")
    { users := [], sessions := [], tasks := [] } (by decide)

/-- C4 counterexample: a legacy file that exists but is not valid JSON
makes `json.load` raise `JSONDecodeError`; `migrate_from_file_if_needed`
has no handler, so `on_startup` (here in the `DATABASE_URL` mode, where
`create_all` creates no `tasks.db` file) propagates it and service startup
fails — contradicting the claim that such files are treated as zero tasks
and startup completes. -/
theorem C4_invalid_json_raises :
    on_startup (fun s => s) "retro-planner-salt" "demo" "2024-01-01T00:00:00"
      (fun _ => "gid") false { tasks_db_exists := false, tasks_json := some none }
      { users := [], sessions := [], tasks := [] } = .error .jsonDecodeError := rfl

/-- C5: `login_user` produces the identical error — the same status code
and the same detail string — when no user has the normalized email and
when a user exists but the password digest does not match; the two failures
are indistinguishable, and neither mutates the database. -/
theorem C5_login_indistinguishable (sha : String → String) (salt : String)
    (tokA tokB : String) (pA pB : UserLogin) (dbA dbB : DB)
    (hA : ∀ x ∈ dbA.users, x.email ≠ py_strip (py_lower pA.email))
    (hB : ∃ x ∈ dbB.users, x.email = py_strip (py_lower pB.email))
    (hwrong : ∀ x ∈ dbB.users, x.email = py_strip (py_lower pB.email) →
      verify_password sha salt pB.password x.password_hash = false) :
    login_user sha salt tokA pA dbA =
      (dbA, .error { status := 400, detail := "Неверный email или пароль" }) ∧
    login_user sha salt tokB pB dbB =
      (dbB, .error { status := 400, detail := "Неверный email или пароль" }) := by
  constructor
  · have hfind : dbA.users.find? (fun x => x.email == py_strip (py_lower pA.email)) =
        none := by
      apply List.find?_eq_none.mpr
      intro x hx hbeq
      exact hA x hx (by simpa using hbeq)
    simp only [login_user, hfind]
  · obtain ⟨u0, hu0, he0⟩ := hB
    obtain ⟨usr, hfu, hpu⟩ := find?_isSome_of_exists (l := dbB.users)
      (p := fun x => x.email == py_strip (py_lower pB.email)) ⟨u0, hu0, by simpa using he0⟩
    have hv : verify_password sha salt pB.password usr.password_hash = false :=
      hwrong usr (List.mem_of_find?_eq_some hfu) (by simpa using hpu)
    simp only [login_user, hfu, hv]
    simp

/-- C5 witness: empty directory versus the fixture user with a wrong
password give the same error. -/
theorem C5_login_indistinguishable_witness :
    login_user (fun s => s) "retro-planner-salt" "tk1"
      { email := "ghost@x.com", password := "pw" }
      { users := [], sessions := [], tasks := [] } =
      ({ users := [], sessions := [], tasks := [] },
        .error { status := 400, detail := "Неверный email или пароль" }) ∧
    login_user (fun s => s) "retro-planner-salt" "tk2"
      { email := "A@X.com", password := "wrong" } wDB =
      (wDB, .error { status := 400, detail := "Неверный email или пароль" }) :=
  C5_login_indistinguishable (fun s => s) "retro-planner-salt" "tk1" "tk2"
    { email := "ghost@x.com", password := "pw" }
    { email := "A@X.com", password := "wrong" }
    { users := [], sessions := [], tasks := [] } wDB
    (by decide) (by decide) (by decide)

/-- C6: create rejects a whitespace-only body with 400 and stores nothing;
otherwise it appends exactly one task whose title is the first five
whitespace-separated words of the trimmed body joined by single spaces,
whose completion flag is false, whose category is `"work"` when none is
supplied (empty), and whose project defaults to the empty string. -/
theorem C6_create_semantics (freshId nowIso : String) (payload : TaskCreate)
    (user : UserORM) (db : DB) :
    (py_strip payload.text = "" →
      create_task freshId nowIso payload user db =
        (db, .error { status := 400, detail := "Текст задачи не может быть пустым" })) ∧
    (py_strip payload.text ≠ "" →
      ∃ task, create_task freshId nowIso payload user db =
          ({ db with tasks := db.tasks ++ [task] }, .ok task) ∧
        task.title = String.intercalate " "
          (((pywords (py_strip payload.text).data).take 5).map String.mk) ∧
        task.done = false ∧
        task.text = py_strip payload.text ∧
        task.createdAt = nowIso ∧
        task.user_id = user.id ∧
        (payload.category = "" → task.category = "work") ∧
        (payload.category ≠ "" → task.category = payload.category) ∧
        (payload.project = "" → task.project = "") ∧
        task.date = payload.date) := by
  constructor
  · intro h
    rw [create_task, if_pos (by simpa using h)]
  · intro h
    rw [create_task, if_neg (by simpa using h)]
    have hw : pywords (py_strip (py_strip payload.text)).data =
        pywords (py_strip payload.text).data := pywords_strip _
    have hne : (pywords (py_strip payload.text).data).isEmpty = false :=
      List.isEmpty_eq_false.mpr (pywords_strip_ne_nil h)
    refine ⟨_, rfl, ?_, rfl, rfl, rfl, rfl, ?_, ?_, ?_, rfl⟩
    · show make_title (py_strip payload.text) = _
      simp only [make_title, hw, hne]
      rfl
    · intro hc
      show (if payload.category == "" then "work" else payload.category) = "work"
      rw [if_pos (by simpa using hc)]
    · intro hc
      show (if payload.category == "" then "work" else payload.category) = payload.category
      rw [if_neg (by simpa using hc)]
    · intro hp
      show (if payload.project == "" then "" else payload.project) = ""
      rw [if_pos (by simpa using hp)]

/-- C6 witness: the documented example body yields the five-word title. -/
theorem C6_create_semantics_witness :
    ∃ task, create_task "t9" "2024-02-02T00:00:00"
        { text := "Buy milk and eggs today please", category := "", project := "",
          date := none } wUserA { users := [], sessions := [], tasks := [] } =
        ({ ({ users := [], sessions := [], tasks := [] } : DB) with
            tasks := ({ users := [], sessions := [], tasks := [] } : DB).tasks ++ [task] },
          .ok task) ∧
      task.title = String.intercalate " "
        (((pywords (py_strip "Buy milk and eggs today please").data).take 5).map
          String.mk) ∧
      task.done = false ∧
      task.text = py_strip "Buy milk and eggs today please" ∧
      task.createdAt = "2024-02-02T00:00:00" ∧
      task.user_id = wUserA.id ∧
      ((("" : String) = "") → task.category = "work") ∧
      ((("" : String) ≠ "") → task.category = "") ∧
      ((("" : String) = "") → task.project = "") ∧
      task.date = none :=
  (C6_create_semantics "t9" "2024-02-02T00:00:00"
    { text := "Buy milk and eggs today please", category := "", project := "",
      date := none } wUserA { users := [], sessions := [], tasks := [] }).2 (by decide)

/-- C7: a patch by the owner rewrites only the matching row, applies
exactly the supplied fields, recomputes the title only when a new body is
supplied, and leaves id, owner, creation timestamp and every absent field
unchanged. -/
theorem C7_patch_frame (db : DB) (task : TaskORM) (A : UserORM) (p : TaskPatch)
    (hmem : task ∈ db.tasks) (hids : (db.tasks.map TaskORM.id).Nodup)
    (howner : task.user_id = A.id) :
    ∃ task2, update_task task.id p A db =
        ({ db with tasks := db.tasks.map (fun x =>
            if x.id == task.id && x.user_id == A.id then apply_patch p x else x) },
          .ok task2) ∧
      task2.id = task.id ∧ task2.user_id = task.user_id ∧
      task2.createdAt = task.createdAt ∧
      (p.text = none → task2.text = task.text ∧ task2.title = task.title) ∧
      (∀ s, p.text = some s → task2.text = s ∧ task2.title = make_title s) ∧
      (p.category = none → task2.category = task.category) ∧
      (∀ c, p.category = some c → task2.category = c) ∧
      (p.project = none → task2.project = task.project) ∧
      (∀ pr, p.project = some pr → task2.project = pr) ∧
      (p.date = none → task2.date = task.date) ∧
      (∀ d, p.date = some d → task2.date = some d) ∧
      (p.done = none → task2.done = task.done) ∧
      (∀ b, p.done = some b → task2.done = b) := by
  obtain ⟨h1, h2, h3, h4, h5, h6, h7, h8, h9⟩ := apply_patch_fields p task
  refine ⟨apply_patch p task, ?_, h1, h2, h3, ?_, ?_, ?_, ?_, ?_, ?_, ?_, ?_, ?_, ?_⟩
  · rw [update_task, find?_owned hmem hids howner]
  · intro h; rw [h] at h4 h5; exact ⟨h4, h5⟩
  · intro s h; rw [h] at h4 h5; exact ⟨h4, h5⟩
  · intro h; rw [h] at h6; exact h6
  · intro c h; rw [h] at h6; exact h6
  · intro h; rw [h] at h7; exact h7
  · intro pr h; rw [h] at h7; exact h7
  · intro h; rw [h] at h8; exact h8
  · intro d h; rw [h] at h8; exact h8
  · intro h; rw [h] at h9; exact h9
  · intro b h; rw [h] at h9; exact h9

/-- C7 witness: patching only `done` on the fixture task keeps category and
project (and everything else) unchanged. -/
theorem C7_patch_frame_witness :
    ∃ task2, update_task wTask.id wPatchDone wUserA wDB =
        ({ wDB with tasks := wDB.tasks.map (fun x =>
            if x.id == wTask.id && x.user_id == wUserA.id then apply_patch wPatchDone x
            else x) },
          .ok task2) ∧
      task2.id = wTask.id ∧ task2.user_id = wTask.user_id ∧
      task2.createdAt = wTask.createdAt ∧
      (wPatchDone.text = none → task2.text = wTask.text ∧
        task2.title = wTask.title) ∧
      (∀ s, wPatchDone.text = some s → task2.text = s ∧
        task2.title = make_title s) ∧
      (wPatchDone.category = none → task2.category = wTask.category) ∧
      (∀ c, wPatchDone.category = some c → task2.category = c) ∧
      (wPatchDone.project = none → task2.project = wTask.project) ∧
      (∀ pr, wPatchDone.project = some pr → task2.project = pr) ∧
      (wPatchDone.date = none → task2.date = wTask.date) ∧
      (∀ d, wPatchDone.date = some d → task2.date = some d) ∧
      (wPatchDone.done = none → task2.done = wTask.done) ∧
      (∀ b, wPatchDone.done = some b → task2.done = b) :=
  C7_patch_frame wDB wTask wUserA wPatchDone (by decide) (by decide) (by decide)

/-- C8: the migration runner is gated on the durable store artifact: when
`tasks.db` already exists it performs no writes at all (the database is
returned unchanged) even if a legacy file is present, so a second run
against an initialized store keeps exactly the task count of the first. -/
theorem C8_migration_gated (sha : String → String) (salt demo_id nowIso : String)
    (gen : Nat → String) (fs : FsState) (db : DB)
    (h : fs.tasks_db_exists = true) :
    migrate_from_file_if_needed sha salt demo_id nowIso gen fs db = .ok db ∧
    (migrate_from_file_if_needed sha salt demo_id nowIso gen fs db).map
      (fun d => d.tasks.length) = .ok db.tasks.length := by
  have h1 : migrate_from_file_if_needed sha salt demo_id nowIso gen fs db = .ok db := by
    rw [migrate_from_file_if_needed, if_pos h]
  exact ⟨h1, by rw [h1]; rfl⟩

/-- C8 witness: with the store artifact present and a legacy file still on
disk, the runner changes nothing. -/
theorem C8_migration_gated_witness :
    migrate_from_file_if_needed (fun s => s) "retro-planner-salt" "demo"
      "2024-01-01T00:00:00" (fun _ => "gid")
      { tasks_db_exists := true, tasks_json := some (some (.arr [.str "x"])) } wDB =
      .ok wDB ∧
    (migrate_from_file_if_needed (fun s => s) "retro-planner-salt" "demo"
      "2024-01-01T00:00:00" (fun _ => "gid")
      { tasks_db_exists := true, tasks_json := some (some (.arr [.str "x"])) } wDB).map
      (fun d => d.tasks.length) = .ok wDB.tasks.length :=
  C8_migration_gated (fun s => s) "retro-planner-salt" "demo" "2024-01-01T00:00:00"
    (fun _ => "gid")
    { tasks_db_exists := true, tasks_json := some (some (.arr [.str "x"])) } wDB rfl

/-- C9: logout never raises (it is a total function), always reports 204,
is a strict no-op on a missing/blank/unknown token, and revoking the same
token twice gives the same state as revoking it once. -/
theorem C9_logout_idempotent (db : DB) (auth : Option String) :
    (logout_user db auth).2 = 204 ∧
    (auth_token auth = none → logout_user db auth = (db, 204)) ∧
    (∀ t, auth_token auth = some t → t ∉ db.sessions.map SessionORM.token →
      logout_user db auth = (db, 204)) ∧
    (logout_user (logout_user db auth).1 auth).1 = (logout_user db auth).1 := by
  refine ⟨?_, ?_, ?_, ?_⟩
  · cases h : auth_token auth <;> simp [logout_user, h]
  · intro h
    rw [logout_user, h]
  · intro t h hno
    have hself : db.sessions.filter (fun s => !(s.token == t)) = db.sessions := by
      apply List.filter_eq_self.mpr
      intro s hs
      have : s.token ≠ t := fun he => hno (List.mem_map.mpr ⟨s, hs, he⟩)
      simpa using this
    simp only [logout_user, h]
    rw [hself]
  · cases h : auth_token auth with
    | none => simp [logout_user, h]
    | some t =>
      simp only [logout_user, h]
      rw [List.filter_filter]
      simp

/-- C9 witness: logging out an unknown token twice at the fixture state. -/
theorem C9_logout_idempotent_witness :
    (logout_user wDB (some "Bearer nope")).2 = 204 ∧
    (auth_token (some "Bearer nope") = none →
      logout_user wDB (some "Bearer nope") = (wDB, 204)) ∧
    (∀ t, auth_token (some "Bearer nope") = some t →
      t ∉ wDB.sessions.map SessionORM.token →
      logout_user wDB (some "Bearer nope") = (wDB, 204)) ∧
    (logout_user (logout_user wDB (some "Bearer nope")).1 (some "Bearer nope")).1 =
      (logout_user wDB (some "Bearer nope")).1 :=
  C9_logout_idempotent wDB (some "Bearer nope")

/-- C10: unlike create, patch neither validates nor trims the body: any
present text — surrounding whitespace included — is stored verbatim, the
call succeeds even on a whitespace-only text, and in that case the title
becomes the fixed placeholder for word-less bodies. -/
theorem C10_patch_text_verbatim (db : DB) (task : TaskORM) (A : UserORM)
    (p : TaskPatch) (s : String) (hmem : task ∈ db.tasks)
    (hids : (db.tasks.map TaskORM.id).Nodup) (howner : task.user_id = A.id)
    (hs : p.text = some s) :
    ∃ task2, update_task task.id p A db =
        ({ db with tasks := db.tasks.map (fun x =>
            if x.id == task.id && x.user_id == A.id then apply_patch p x else x) },
          .ok task2) ∧
      task2.text = s ∧
      ((∀ c ∈ s.data, c.isWhitespace = true) → task2.title = "Без названия") := by
  obtain ⟨h1, h2, h3, h4, h5, h6, h7, h8, h9⟩ := apply_patch_fields p task
  rw [hs] at h4 h5
  refine ⟨apply_patch p task, ?_, h4, ?_⟩
  · rw [update_task, find?_owned hmem hids howner]
  · intro hws
    rw [h5]
    have hwords : pywords (py_strip s).data = [] := by
      show pywords (strip_list s.data) = []
      rw [pywords_strip]
      exact pywords_all_ws hws
    simp [make_title, hwords]

/-- C10 witness: patching the fixture task with the whitespace-only text
`"  "` succeeds, stores it verbatim, and sets the placeholder title. -/
theorem C10_patch_text_verbatim_witness :
    ∃ task2, update_task wTask.id wPatchBlank wUserA wDB =
        ({ wDB with tasks := wDB.tasks.map (fun x =>
            if x.id == wTask.id && x.user_id == wUserA.id then apply_patch wPatchBlank x
            else x) },
          .ok task2) ∧
      task2.text = "  " ∧
      ((∀ c ∈ ("  " : String).data, c.isWhitespace = true) →
        task2.title = "Без названия") :=
  C10_patch_text_verbatim wDB wTask wUserA wPatchBlank "  "
    (by decide) (by decide) (by decide) rfl

end RetroPlanner
